import Mathlib

/-!
Verification of the configuration layer of the armada TCP SYN port scanner
(src/armada/src/args.rs). Strings are embedded as lists of characters,
panics as `Option` failure, and environment inputs (random number source,
whether stdout is a terminal, the outcomes of the external IP/CIDR parsers)
as explicit parameters.
-/

namespace Armada

/-- An IP address, v4 or v6, as produced by the standard library parser. -/
inductive IpAddr where
  | v4 (addr : Nat)
  | v6 (addr : Nat)
deriving DecidableEq, Repr

/-- A CIDR block as produced by the cidr_utils parser. -/
structure IpCidr where
  isV6 : Bool
  base : Nat
  maskBits : Nat
deriving DecidableEq, Repr

/-- A raw target string, represented by the outcomes of the two external
parsers applied to it by get_targets: IpAddr::from_str and IpCidr::from_str. -/
structure TargetInput where
  asIp : Option IpAddr
  asCidr : Option IpCidr
deriving DecidableEq, Repr

/-- Default rate limit from args.rs line 15. -/
def DEFAULT_RATE_LIMIT : Nat := 10000

/-- Default number of additional port attempts from args.rs line 16. -/
def DEFAULT_PORT_RETRY : Nat := 2

/-- Default timeout in milliseconds from args.rs line 17. -/
def DEFAULT_TIMEOUT_IN_MS : Nat := 1000

/-- Numeric value of a list of ASCII digit characters, most significant first. -/
def digitsToNat (s : List Char) : Nat :=
  s.foldl (fun acc c => 10 * acc + (c.toNat - 48)) 0

/-- Drop one optional leading plus sign, as Rust's unsigned integer parser does. -/
def stripPlus (s : List Char) : List Char :=
  match s with
  | c :: rest => if c = '+' then rest else s
  | [] => s

/-- Model of Rust's str::parse for an unsigned integer of the given bit width:
an optional leading plus sign, then one or more ASCII digits, whose value
must fit in the width; anything else is a parse error. -/
def parseUInt (bits : Nat) (s : List Char) : Option Nat :=
  let body := stripPlus s
  if body.isEmpty then none
  else if !(body.all Char.isDigit) then none
  else if digitsToNat body < 2 ^ bits then some (digitsToNat body) else none

/-- Rust parse::<u8>. -/
def parseU8 (s : List Char) : Option Nat := parseUInt 8 s

/-- Rust parse::<u16>. -/
def parseU16 (s : List Char) : Option Nat := parseUInt 16 s

/-- Rust parse::<u64> (also used for usize, 64-bit here). -/
def parseU64 (s : List Char) : Option Nat := parseUInt 64 s

/-- One registered port entry: an explicit value or an inclusive range. -/
inductive PortSpec where
  | single (port : Nat)
  | range (startPort endPort : Nat)
deriving DecidableEq, Repr

/-- The lazy port generator of armada_lib, modelled by its list of registered
entries in registration order. -/
structure PortIterator where
  entries : List PortSpec
deriving DecidableEq, Repr

/-- Fresh, empty port iterator. -/
def PortIterator.new : PortIterator := ⟨[]⟩

/-- Modelled from the spec: armada_lib's PortIterator::add_port is not under
src/; the spec says ports are produced from explicit values, so the model
records the singleton value in registration order. -/
def PortIterator.add_port (it : PortIterator) (p : Nat) : PortIterator :=
  ⟨it.entries ++ [PortSpec.single p]⟩

/-- Modelled from the spec: armada_lib's PortIterator::add_range is not under
src/; the spec says an inclusive range whose start exceeds its end is a
configuration error, so the model fails on start > end and otherwise records
the inclusive range in registration order. -/
def PortIterator.add_range (it : PortIterator) (s e : Nat) : Option PortIterator :=
  if e < s then none else some ⟨it.entries ++ [PortSpec.range s e]⟩

/-- Capture structure of the anchored port regex of args.rs line 116: one
group of digits, optionally followed by a dash and a second group of digits.
Returns the captured digit groups, or none when the string does not match. -/
def portCaptures (s : List Char) : Option (List Char × Option (List Char)) :=
  let d1 := s.takeWhile Char.isDigit
  let rest := s.dropWhile Char.isDigit
  if d1.isEmpty then none
  else
    match rest with
    | [] => some (d1, none)
    | '-' :: tail =>
      if tail.isEmpty then none
      else if !(tail.all Char.isDigit) then none
      else some (d1, some tail)
    | _ => none

/-- Per-string port interpretation of get_ports (args.rs lines 116-141):
regex match, then u16 parse of each captured group; any failure panics. -/
def parsePortString (s : List Char) : Option PortSpec :=
  match portCaptures s with
  | none => none
  | some (d1, od2) =>
    match parseU16 d1, od2 with
    | none, _ => none
    | some a, none => some (PortSpec.single a)
    | some a, some d2 =>
      match parseU16 d2 with
      | none => none
      | some b => some (PortSpec.range a b)

/-- One step of the get_ports fold: interpret the string and register it. -/
def portFoldStep (it : PortIterator) (s : List Char) : Option PortIterator :=
  match parsePortString s with
  | none => none
  | some (PortSpec.single p) => some (it.add_port p)
  | some (PortSpec.range a b) => it.add_range a b

/-- The get_ports fold over the selected port strings, short-circuiting on the
first panic. -/
def foldPorts (it : PortIterator) : List (List Char) → Option PortIterator
  | [] => some it
  | s :: rest => (portFoldStep it s).bind (fun it2 => foldPorts it2 rest)

/-- Port-string source selection of get_ports (args.rs lines 109-114):
explicit values, else the top-100 list, else the top-1000 list, else panic.
The two built-in lists live in crate::ranges and are passed in here. -/
def portStrings (user : Option (List (List Char))) (top100 top1000 : Bool)
    (top100List top1000List : List (List Char)) : Option (List (List Char)) :=
  match user, top100, top1000 with
  | some values, _, _ => some values
  | _, true, _ => some top100List
  | _, _, true => some top1000List
  | _, _, _ => none

/-- get_ports (args.rs lines 100-143): select the port strings, then fold them
into a PortIterator; any panic yields none. -/
def get_ports (user : Option (List (List Char))) (top100 top1000 : Bool)
    (top100List top1000List : List (List Char)) : Option PortIterator :=
  match portStrings user top100 top1000 top100List top1000List with
  | none => none
  | some strs => foldPorts PortIterator.new strs

/-- The lazy host generator of armada_lib, modelled by its list of registered
sources (single addresses or CIDR blocks) in registration order. -/
structure HostIterator where
  sources : List (IpAddr ⊕ IpCidr)
deriving DecidableEq, Repr

/-- Fresh, empty host iterator. -/
def HostIterator.new : HostIterator := ⟨[]⟩

/-- Modelled from the spec: armada_lib's HostIterator::add_ip is not under
src/; the spec says hosts are produced from literal addresses visited in
registration order, so the model records the address. -/
def HostIterator.add_ip (h : HostIterator) (ip : IpAddr) : HostIterator :=
  ⟨h.sources ++ [Sum.inl ip]⟩

/-- Modelled from the spec: armada_lib's HostIterator::add_cidr is not under
src/; the spec says hosts are produced by expanding CIDR blocks visited in
registration order, so the model records the block. -/
def HostIterator.add_cidr (h : HostIterator) (c : IpCidr) : HostIterator :=
  ⟨h.sources ++ [Sum.inr c]⟩

/-- One step of the get_targets fold (args.rs lines 88-97): try the IP parse,
else the CIDR parse, else panic. -/
def targetFoldStep (hi : HostIterator) (t : TargetInput) : Option HostIterator :=
  match t.asIp with
  | some ip => some (hi.add_ip ip)
  | none =>
    match t.asCidr with
    | some c => some (hi.add_cidr c)
    | none => none

/-- The get_targets fold over all target strings. -/
def foldTargets (hi : HostIterator) : List TargetInput → Option HostIterator
  | [] => some hi
  | t :: rest => (targetFoldStep hi t).bind (fun hi2 => foldTargets hi2 rest)

/-- get_targets (args.rs lines 70-98), starting from the empty iterator. -/
def get_targets (targets : List TargetInput) : Option HostIterator :=
  foldTargets HostIterator.new targets

/-- The source entry a single target string contributes, when it parses. -/
def registeredSource (t : TargetInput) : Option (IpAddr ⊕ IpCidr) :=
  match t.asIp with
  | some ip => some (Sum.inl ip)
  | none => t.asCidr.map Sum.inr

/-- The sources contributed by a list of target strings, in order; none when
some string parses neither as an address nor as a CIDR block. -/
def collectSources : List TargetInput → Option (List (IpAddr ⊕ IpCidr))
  | [] => some []
  | t :: rest =>
    (registeredSource t).bind (fun src => (collectSources rest).map (fun l => src :: l))

/-- get_quiet_mode (args.rs lines 145-147). -/
def get_quiet_mode (quiet : Bool) : Bool := quiet

/-- get_rate_limit (args.rs lines 149-162): parse the flag value first (panic
on a non-numeric value), then: sanic forces no limit, an explicit zero means
no limit, an explicit positive value is the limit, and an absent flag uses the
default limit. -/
def get_rate_limit (arg : Option (List Char)) (sanic : Bool) : Option (Option Nat) :=
  match arg with
  | some s =>
    match parseU64 s with
    | none => none
    | some r =>
      if sanic then some none
      else if r = 0 then some none
      else some (some r)
  | none => if sanic then some none else some (some DEFAULT_RATE_LIMIT)

/-- get_listening_port (args.rs lines 164-173): parse the supplied value as a
u16 (panic on failure), or pick a random port in 50000..60000. The random
outcome is supplied as a natural number rng; gen_range maps it into the
half-open interval. -/
def get_listening_port (arg : Option (List Char)) (rng : Nat) : Option Nat :=
  match arg with
  | some s => parseU16 s
  | none => some (50000 + rng % 10000)

/-- get_retries (args.rs lines 179-189): an explicit value is parsed as u8
(panic on failure) and wins over sanic; otherwise sanic gives 0, else the
default. -/
def get_retries (arg : Option (List Char)) (sanic : Bool) : Option Nat :=
  match arg with
  | some s => parseU8 s
  | none => some (if sanic then 0 else DEFAULT_PORT_RETRY)

/-- Model of std::time::Duration: whole seconds plus nanoseconds. -/
structure Duration where
  secs : Nat
  nanos : Nat
deriving DecidableEq, Repr

/-- Duration::from_millis. -/
def Duration.from_millis (ms : Nat) : Duration :=
  ⟨ms / 1000, ms % 1000 * 1000000⟩

/-- The number of whole milliseconds a Duration holds. -/
def Duration.asMillis (d : Duration) : Nat := d.secs * 1000 + d.nanos / 1000000

/-- get_timeout (args.rs lines 191-202): parse the supplied value as u64
(panic on failure), defaulting to DEFAULT_TIMEOUT_IN_MS, and interpret it as
milliseconds. -/
def get_timeout (arg : Option (List Char)) : Option Duration :=
  match arg with
  | some s =>
    match parseU64 s with
    | none => none
    | some t => some (Duration.from_millis t)
  | none => some (Duration.from_millis DEFAULT_TIMEOUT_IN_MS)

/-- The addresses contributed by the supplied source-IP strings, each
represented by its IpAddr::from_str outcome; none when any string fails to
parse (the panic in args.rs line 207). -/
def collectIps : List (Option IpAddr) → Option (List IpAddr)
  | [] => some []
  | x :: rest => x.bind (fun ip => (collectIps rest).map (fun l => ip :: l))

/-- get_source_ip_addresses (args.rs lines 204-210): an absent flag yields
none (engine defaults); otherwise every value must parse, in order. -/
def get_source_ip_addresses (vals : Option (List (Option IpAddr))) :
    Option (Option (List IpAddr)) :=
  match vals with
  | none => some none
  | some l =>
    match collectIps l with
    | none => none
    | some ips => some (some ips)

/-- get_stream_results (args.rs lines 212-214). -/
def get_stream_results (stream : Bool) : Bool := stream

/-- The parsed command-line matches consumed by get_armada_config, with each
external parse represented by its outcome. -/
structure Matches where
  targets : List TargetInput
  ports : Option (List (List Char))
  top100 : Bool
  top1000 : Bool
  quiet : Bool
  rate_limit : Option (List Char)
  listening_port : Option (List Char)
  output_format : List Char
  retries : Option (List Char)
  timeout : Option (List Char)
  source_ip : Option (List (Option IpAddr))
  stream : Bool
  sanic : Bool

/-- Process environment consumed by get_armada_config: whether stdout is a
terminal, the random outcome for the listening port, and the two built-in
port lists from crate::ranges. -/
structure Env where
  stdoutTty : Bool
  rng : Nat
  top100List : List (List Char)
  top1000List : List (List Char)

/-- The immutable configuration record of args.rs lines 19-30. -/
structure ArmadaConfig where
  targets : HostIterator
  ports : PortIterator
  quiet_mode : Bool
  rate_limit : Option Nat
  listening_port : Nat
  output_format : List Char
  retries : Nat
  timeout : Duration
  source_ips : Option (List IpAddr)
  stream_results : Bool

/-- get_armada_config (args.rs lines 32-68): run every getter (any panic
aborts construction), then reject streaming to an interactive stdout outside
quiet mode, then assemble the record. -/
def get_armada_config (m : Matches) (env : Env) : Option ArmadaConfig := do
  let targets ← get_targets m.targets
  let ports ← get_ports m.ports m.top100 m.top1000 env.top100List env.top1000List
  let quiet_mode := get_quiet_mode m.quiet
  let rate_limit ← get_rate_limit m.rate_limit m.sanic
  let listening_port ← get_listening_port m.listening_port env.rng
  let output_format := m.output_format
  let retries ← get_retries m.retries m.sanic
  let timeout ← get_timeout m.timeout
  let source_ips ← get_source_ip_addresses m.source_ip
  let stream_results := get_stream_results m.stream
  if stream_results && (!quiet_mode && env.stdoutTty) then none
  else
    some ⟨targets, ports, quiet_mode, rate_limit, listening_port, output_format,
      retries, timeout, source_ips, stream_results⟩

/-- All getters that can panic succeed on these matches and environment. -/
def gettersOk (m : Matches) (env : Env) : Prop :=
  (get_targets m.targets).isSome = true
  ∧ (get_ports m.ports m.top100 m.top1000 env.top100List env.top1000List).isSome = true
  ∧ (get_rate_limit m.rate_limit m.sanic).isSome = true
  ∧ (get_listening_port m.listening_port env.rng).isSome = true
  ∧ (get_retries m.retries m.sanic).isSome = true
  ∧ (get_timeout m.timeout).isSome = true
  ∧ (get_source_ip_addresses m.source_ip).isSome = true

/-- Claim-side shape: the string is one decimal integer denoting n, and n
fits in 16 bits. -/
def singleShape (s : List Char) (n : Nat) : Prop :=
  s ≠ [] ∧ s.all Char.isDigit = true ∧ digitsToNat s = n ∧ n < 65536

/-- Claim-side shape: the string is a dash-separated pair of decimal integers
denoting n and m, each fitting in 16 bits. -/
def rangeShape (s : List Char) (n m : Nat) : Prop :=
  ∃ d1 d2, d1 ≠ [] ∧ d1.all Char.isDigit = true
    ∧ d2 ≠ [] ∧ d2.all Char.isDigit = true
    ∧ s = d1 ++ '-' :: d2
    ∧ digitsToNat d1 = n ∧ digitsToNat d2 = m ∧ n < 65536 ∧ m < 65536

/-- Claim-side shape: the string denotes the unsigned integer n, in the form
Rust's unsigned parser accepts (optional plus sign, then digits). -/
def uintRep (s : List Char) (n : Nat) : Prop :=
  stripPlus s ≠ [] ∧ (stripPlus s).all Char.isDigit = true ∧ digitsToNat (stripPlus s) = n

theorem takeWhile_digits_self (d : List Char) (hd : d.all Char.isDigit = true) :
    d.takeWhile Char.isDigit = d ∧ d.dropWhile Char.isDigit = [] := by
  induction d with
  | nil => simp
  | cons c t ih =>
    simp only [List.all_cons, Bool.and_eq_true] at hd
    simp [List.takeWhile_cons, List.dropWhile_cons, hd.1, ih hd.2]

theorem takeWhile_digits_dash (d t : List Char) (hd : d.all Char.isDigit = true) :
    (d ++ '-' :: t).takeWhile Char.isDigit = d
    ∧ (d ++ '-' :: t).dropWhile Char.isDigit = '-' :: t := by
  induction d with
  | nil =>
    have hdash : Char.isDigit '-' = false := by decide
    simp [List.takeWhile_cons, List.dropWhile_cons, hdash]
  | cons c rest ih =>
    simp only [List.all_cons, Bool.and_eq_true] at hd
    simp [List.takeWhile_cons, List.dropWhile_cons, hd.1, ih hd.2]

theorem portCaptures_single_intro (d : List Char) (h1 : d ≠ [])
    (h2 : d.all Char.isDigit = true) : portCaptures d = some (d, none) := by
  obtain ⟨htake, hdrop⟩ := takeWhile_digits_self d h2
  simp [portCaptures, htake, hdrop, h1]

theorem portCaptures_range_intro (d1 d2 : List Char) (h1 : d1 ≠ [])
    (h2 : d1.all Char.isDigit = true) (h3 : d2 ≠ [])
    (h4 : d2.all Char.isDigit = true) :
    portCaptures (d1 ++ '-' :: d2) = some (d1, some d2) := by
  obtain ⟨htake, hdrop⟩ := takeWhile_digits_dash d1 d2 h2
  simp [portCaptures, htake, hdrop, h1, h3, h4]

theorem portCaptures_elim (s d1 : List Char) (od2 : Option (List Char))
    (h : portCaptures s = some (d1, od2)) :
    d1 ≠ [] ∧ d1.all Char.isDigit = true
    ∧ (od2 = none → s = d1)
    ∧ (∀ d2, od2 = some d2 →
        d2 ≠ [] ∧ d2.all Char.isDigit = true ∧ s = d1 ++ '-' :: d2) := by
  have hsplit : s.takeWhile Char.isDigit ++ s.dropWhile Char.isDigit = s := by
    simp
  have halltake : (s.takeWhile Char.isDigit).all Char.isDigit = true := by
    rw [List.all_eq_true]
    intro c hc
    exact List.mem_takeWhile_imp hc
  unfold portCaptures at h
  simp only at h
  split at h
  · cases h
  · rename_i he
    split at h
    · rename_i hdrop
      simp only [Option.some.injEq, Prod.mk.injEq] at h
      obtain ⟨hd1, hod2⟩ := h
      subst hd1
      subst hod2
      refine ⟨by simpa [List.isEmpty_iff] using he, halltake, ?_, ?_⟩
      · intro _
        rw [hdrop, List.append_nil] at hsplit
        exact hsplit.symm
      · intro d2 hd2
        cases hd2
    · rename_i tail hdrop
      split at h
      · cases h
      · split at h
        · cases h
        · rename_i hte hta
          simp only [Option.some.injEq, Prod.mk.injEq] at h
          obtain ⟨hd1, hod2⟩ := h
          subst hd1
          subst hod2
          refine ⟨by simpa [List.isEmpty_iff] using he, halltake, ?_, ?_⟩
          · intro hn
            cases hn
          · intro d2 hd2
            cases hd2
            refine ⟨by simpa [List.isEmpty_iff] using hte, by simpa using hta, ?_⟩
            rw [hdrop] at hsplit
            exact hsplit.symm
    · cases h

theorem stripPlus_digits (d : List Char) (h2 : d.all Char.isDigit = true) :
    stripPlus d = d := by
  rcases d with _ | ⟨c, t⟩
  · rfl
  · simp only [List.all_cons, Bool.and_eq_true] at h2
    have hc : c ≠ '+' := by
      intro hcp
      rw [hcp] at h2
      simp at h2
    simp [stripPlus, hc]

theorem parseU16_digits (d : List Char) (h1 : d ≠ []) (h2 : d.all Char.isDigit = true) :
    parseU16 d = if digitsToNat d < 65536 then some (digitsToNat d) else none := by
  have hs : stripPlus d = d := stripPlus_digits d h2
  have hne : d.isEmpty = false := by simpa [List.isEmpty_iff] using h1
  simp only [parseU16, parseUInt, hs, hne, h2]
  norm_num

theorem parseUInt_eq_some_iff (bits : Nat) (s : List Char) (n : Nat) :
    parseUInt bits s = some n ↔ uintRep s n ∧ n < 2 ^ bits := by
  unfold parseUInt uintRep
  by_cases he : (stripPlus s).isEmpty
  · simp [he, List.isEmpty_iff.mp he]
  · have hne : stripPlus s ≠ [] := by simpa [List.isEmpty_iff] using he
    by_cases ha : (stripPlus s).all Char.isDigit
    · by_cases hlt : digitsToNat (stripPlus s) < 2 ^ bits
      · simp only [he, ha, hlt, if_true, if_false, Bool.not_true, Bool.false_eq_true,
          Option.some.injEq]
        constructor
        · rintro rfl
          exact ⟨⟨hne, trivial, rfl⟩, hlt⟩
        · rintro ⟨⟨_, _, hval⟩, _⟩
          exact hval
      · simp only [he, ha, hlt, if_false, Bool.not_true, Bool.false_eq_true]
        constructor
        · intro h
          cases h
        · rintro ⟨⟨_, _, hval⟩, hn⟩
          exact absurd (hval ▸ hn) hlt
    · have ha2 : (stripPlus s).all Char.isDigit = false := by
        simpa using ha
      simp [he, ha2]

theorem parseUInt_eq_none_iff (bits : Nat) (s : List Char) :
    parseUInt bits s = none ↔ ¬ ∃ n, n < 2 ^ bits ∧ uintRep s n := by
  constructor
  · intro h
    rintro ⟨n, hn, hrep⟩
    have := (parseUInt_eq_some_iff bits s n).mpr ⟨hrep, hn⟩
    rw [h] at this
    cases this
  · intro h
    rcases hp : parseUInt bits s with _ | n
    · rfl
    · obtain ⟨hrep, hn⟩ := (parseUInt_eq_some_iff bits s n).mp hp
      exact absurd ⟨n, hn, hrep⟩ h

theorem foldPorts_eq_none_of_mem (s : List Char)
    (hs : ∀ it, portFoldStep it s = none) :
    ∀ (l : List (List Char)) (it : PortIterator), s ∈ l → foldPorts it l = none := by
  intro l
  induction l with
  | nil =>
    intro it hm
    cases hm
  | cons a t ih =>
    intro it hm
    rcases List.mem_cons.mp hm with hh | ht
    · subst hh
      simp [foldPorts, hs it]
    · simp only [foldPorts]
      rcases hstep : portFoldStep it a with _ | it2
      · rfl
      · exact ih it2 ht

theorem registeredSource_eq_none_iff (t : TargetInput) :
    registeredSource t = none ↔ t.asIp = none ∧ t.asCidr = none := by
  rcases t with ⟨ip, cidr⟩
  rcases ip with _ | ip <;> rcases cidr with _ | cidr <;> simp [registeredSource]

theorem foldTargets_eq (ts : List TargetInput) :
    ∀ hi : HostIterator,
      foldTargets hi ts = (collectSources ts).map (fun l => ⟨hi.sources ++ l⟩) := by
  induction ts with
  | nil =>
    intro hi
    simp [foldTargets, collectSources]
  | cons t rest ih =>
    intro hi
    have hstep : targetFoldStep hi t =
        (registeredSource t).map (fun src => ⟨hi.sources ++ [src]⟩) := by
      rcases t with ⟨ip, cidr⟩
      rcases ip with _ | ip <;> rcases cidr with _ | cidr <;>
        simp [targetFoldStep, registeredSource, HostIterator.add_ip, HostIterator.add_cidr]
    simp only [foldTargets, collectSources, hstep]
    rcases hr : registeredSource t with _ | src
    · rfl
    · simp only [Option.map_some', Option.some_bind]
      rw [ih]
      rcases hcs : collectSources rest with _ | l
      · rfl
      · simp [List.append_assoc]

theorem collectSources_eq_none_iff (ts : List TargetInput) :
    collectSources ts = none ↔ ∃ t ∈ ts, t.asIp = none ∧ t.asCidr = none := by
  induction ts with
  | nil => simp [collectSources]
  | cons t rest ih =>
    simp only [collectSources]
    rcases hr : registeredSource t with _ | src
    · constructor
      · intro _
        exact ⟨t, List.mem_cons_self t rest, (registeredSource_eq_none_iff t).mp hr⟩
      · intro _
        rfl
    · have hnot : ¬(t.asIp = none ∧ t.asCidr = none) := by
        intro hc
        rw [(registeredSource_eq_none_iff t).mpr hc] at hr
        cases hr
      simp only [Option.some_bind]
      constructor
      · intro h
        have hrest : collectSources rest = none := by
          rcases hcs : collectSources rest with _ | l
          · rfl
          · rw [hcs] at h
            simp at h
        obtain ⟨u, hu, hprop⟩ := ih.mp hrest
        exact ⟨u, List.mem_cons_of_mem t hu, hprop⟩
      · rintro ⟨u, hu, hprop⟩
        rcases List.mem_cons.mp hu with hh | ht
        · subst hh
          exact absurd hprop hnot
        · have hrest := ih.mpr ⟨u, ht, hprop⟩
          rw [hrest]
          rfl

theorem collectIps_map_some (ips : List IpAddr) :
    collectIps (ips.map some) = some ips := by
  induction ips with
  | nil => rfl
  | cons ip rest ih => simp [collectIps, ih]

theorem collectIps_none_of_mem (l : List (Option IpAddr)) (h : none ∈ l) :
    collectIps l = none := by
  induction l with
  | nil => cases h
  | cons x rest ih =>
    rcases List.mem_cons.mp h with hh | ht
    · rw [← hh]
      rfl
    · rcases x with _ | ip
      · rfl
      · simp [collectIps, ih ht]

theorem parsePortString_single_iff (s : List Char) (n : Nat) :
    parsePortString s = some (PortSpec.single n) ↔ singleShape s n := by
  constructor
  · intro h
    unfold parsePortString at h
    split at h
    · cases h
    · rename_i d1 od2 hpc
      obtain ⟨hd1ne, hd1dig, hnone, hsome⟩ := portCaptures_elim s d1 od2 hpc
      split at h
      · cases h
      · rename_i a hp1
        simp only [Option.some.injEq, PortSpec.single.injEq] at h
        have hs : s = d1 := hnone rfl
        rw [parseU16_digits d1 hd1ne hd1dig] at hp1
        by_cases hlt : digitsToNat d1 < 65536
        · rw [if_pos hlt] at hp1
          obtain ha := Option.some.inj hp1
          subst hs
          exact ⟨hd1ne, hd1dig, by rw [← h, ← ha], by rw [← h, ← ha]; exact hlt⟩
        · rw [if_neg hlt] at hp1
          cases hp1
      · split at h
        · cases h
        · simp at h
  · rintro ⟨hne, hdig, hval, hlt⟩
    unfold parsePortString
    rw [portCaptures_single_intro s hne hdig]
    simp [parseU16_digits s hne hdig, hval, hlt]

theorem parsePortString_range_iff (s : List Char) (n m : Nat) :
    parsePortString s = some (PortSpec.range n m) ↔ rangeShape s n m := by
  constructor
  · intro h
    unfold parsePortString at h
    split at h
    · cases h
    · rename_i d1 od2 hpc
      obtain ⟨hd1ne, hd1dig, hnone, hsome⟩ := portCaptures_elim s d1 od2 hpc
      split at h
      · cases h
      · simp at h
      · rename_i a d2 hp1
        obtain ⟨hd2ne, hd2dig, hs⟩ := hsome d2 rfl
        split at h
        · cases h
        · rename_i b hp2
          simp only [Option.some.injEq, PortSpec.range.injEq] at h
          rw [parseU16_digits d1 hd1ne hd1dig] at hp1
          rw [parseU16_digits d2 hd2ne hd2dig] at hp2
          by_cases hlt1 : digitsToNat d1 < 65536
          · rw [if_pos hlt1] at hp1
            by_cases hlt2 : digitsToNat d2 < 65536
            · rw [if_pos hlt2] at hp2
              obtain ha := Option.some.inj hp1
              obtain hb := Option.some.inj hp2
              refine ⟨d1, d2, hd1ne, hd1dig, hd2ne, hd2dig, hs, ?_, ?_, ?_, ?_⟩
              · rw [ha, h.1]
              · rw [hb, h.2]
              · rw [← h.1, ← ha]
                exact hlt1
              · rw [← h.2, ← hb]
                exact hlt2
            · rw [if_neg hlt2] at hp2
              cases hp2
          · rw [if_neg hlt1] at hp1
            cases hp1
  · rintro ⟨d1, d2, hd1ne, hd1dig, hd2ne, hd2dig, hs, hv1, hv2, hlt1, hlt2⟩
    subst hs
    unfold parsePortString
    rw [portCaptures_range_intro d1 d2 hd1ne hd1dig hd2ne hd2dig]
    simp [parseU16_digits d1 hd1ne hd1dig, parseU16_digits d2 hd2ne hd2dig,
      hv1, hv2, hlt1, hlt2]

theorem portFoldStep_of_none (s : List Char) (h : parsePortString s = none)
    (it : PortIterator) : portFoldStep it s = none := by
  unfold portFoldStep
  rw [h]

/-- C1: a port range string whose numeric start exceeds its numeric end is a
fatal configuration error: whenever such a string is among the supplied port
values, get_ports fails instead of returning a PortIterator. -/
theorem get_ports_rejects_inverted_range
    (user : List (List Char)) (top100 top1000 : Bool) (l100 l1000 : List (List Char))
    (d1 d2 : List Char)
    (h1 : d1 ≠ []) (h2 : d1.all Char.isDigit = true)
    (h3 : d2 ≠ []) (h4 : d2.all Char.isDigit = true)
    (hb1 : digitsToNat d1 < 65536) (hb2 : digitsToNat d2 < 65536)
    (hgt : digitsToNat d2 < digitsToNat d1)
    (hmem : d1 ++ '-' :: d2 ∈ user) :
    get_ports (some user) top100 top1000 l100 l1000 = none := by
  have hparse : parsePortString (d1 ++ '-' :: d2)
      = some (PortSpec.range (digitsToNat d1) (digitsToNat d2)) :=
    (parsePortString_range_iff (d1 ++ '-' :: d2) (digitsToNat d1) (digitsToNat d2)).mpr
      ⟨d1, d2, h1, h2, h3, h4, rfl, rfl, rfl, hb1, hb2⟩
  have hstep : ∀ it, portFoldStep it (d1 ++ '-' :: d2) = none := by
    intro it
    unfold portFoldStep
    rw [hparse]
    simp [PortIterator.add_range, hgt]
  have hps : portStrings (some user) top100 top1000 l100 l1000 = some user := by
    cases top100 <;> cases top1000 <;> rfl
  unfold get_ports
  rw [hps]
  exact foldPorts_eq_none_of_mem _ hstep user PortIterator.new hmem

/-- C1 witness: the concrete port range string 100-50 is rejected. -/
theorem get_ports_rejects_inverted_range_witness :
    get_ports (some [['1', '0', '0', '-', '5', '0']]) false false [] [] = none := by
  have h := get_ports_rejects_inverted_range [['1', '0', '0', '-', '5', '0']]
    false false [] [] ['1', '0', '0'] ['5', '0']
    (by decide) (by decide) (by decide) (by decide)
    (by decide) (by decide) (by decide) (by decide)
  simpa using h

/-- C5: a port string is accepted by get_ports only in the shape of one
decimal u16 value N (registered as a singleton port) or a dash-separated pair
N-M of u16 values (registered as the inclusive range (N, M)); any string of
any other shape is a fatal configuration error for the whole port list. -/
theorem get_ports_string_shapes (s : List Char) :
    (∀ n, parsePortString s = some (PortSpec.single n) ↔ singleShape s n)
  ∧ (∀ n m, parsePortString s = some (PortSpec.range n m) ↔ rangeShape s n m)
  ∧ (∀ it n, parsePortString s = some (PortSpec.single n) →
      portFoldStep it s = some (it.add_port n))
  ∧ (∀ it n m, parsePortString s = some (PortSpec.range n m) →
      portFoldStep it s = it.add_range n m)
  ∧ (parsePortString s = none →
      ∀ user top100 top1000 l100 l1000 strs,
        portStrings user top100 top1000 l100 l1000 = some strs → s ∈ strs →
        get_ports user top100 top1000 l100 l1000 = none) := by
  refine ⟨fun n => parsePortString_single_iff s n,
    fun n m => parsePortString_range_iff s n m, ?_, ?_, ?_⟩
  · intro it n h
    unfold portFoldStep
    rw [h]
  · intro it n m h
    unfold portFoldStep
    rw [h]
  · intro hnone user top100 top1000 l100 l1000 strs hsel hmem
    unfold get_ports
    rw [hsel]
    exact foldPorts_eq_none_of_mem s (portFoldStep_of_none s hnone) strs
      PortIterator.new hmem

/-- C5 witness: the string 80 parses as the singleton port 80, and a
non-numeric port string makes get_ports fail. -/
theorem get_ports_string_shapes_witness :
    parsePortString ['8', '0'] = some (PortSpec.single 80)
    ∧ get_ports (some [['x']]) false false [] [] = none := by
  constructor
  · exact ((get_ports_string_shapes ['8', '0']).1 80).mpr
      ⟨by decide, by decide, by decide, by decide⟩
  · exact (get_ports_string_shapes ['x']).2.2.2.2 (by decide)
      (some [['x']]) false false [] [] [['x']] rfl (by decide)

/-- C10: port-source precedence in get_ports: explicitly supplied values are
used when present; else the top-100 list when its flag is set; else the
top-1000 list when its flag is set; with none of the three, get_ports fails. -/
theorem get_ports_source_precedence (user : Option (List (List Char)))
    (top100 top1000 : Bool) (l100 l1000 : List (List Char)) :
    (∀ vals, user = some vals →
      get_ports user top100 top1000 l100 l1000 = foldPorts PortIterator.new vals)
  ∧ (user = none → top100 = true →
      get_ports user top100 top1000 l100 l1000 = foldPorts PortIterator.new l100)
  ∧ (user = none → top100 = false → top1000 = true →
      get_ports user top100 top1000 l100 l1000 = foldPorts PortIterator.new l1000)
  ∧ (user = none → top100 = false → top1000 = false →
      get_ports user top100 top1000 l100 l1000 = none) := by
  refine ⟨?_, ?_, ?_, ?_⟩
  · rintro vals rfl
    cases top100 <;> cases top1000 <;> rfl
  · rintro rfl rfl
    cases top1000 <;> rfl
  · rintro rfl rfl rfl
    rfl
  · rintro rfl rfl rfl
    rfl

/-- C10 witness: the top-100 flag selects the top-100 list when no explicit
ports are given, and with no port source at all get_ports fails. -/
theorem get_ports_source_precedence_witness :
    get_ports none true false [['2', '2']] [] = foldPorts PortIterator.new [['2', '2']]
    ∧ get_ports none false false [] [] = none := by
  constructor
  · exact (get_ports_source_precedence none true false [['2', '2']] []).2.1 rfl rfl
  · exact (get_ports_source_precedence none false false [] []).2.2.2 rfl rfl rfl

/-- C4: get_targets fails exactly when some target string parses neither as
an IP address nor as a CIDR block; when it succeeds, the returned iterator
registers exactly the per-string parse results, in the order given. -/
theorem get_targets_parse_spec (ts : List TargetInput) :
    (get_targets ts = none ↔ ∃ t ∈ ts, t.asIp = none ∧ t.asCidr = none)
  ∧ (∀ hi, get_targets ts = some hi → collectSources ts = some hi.sources) := by
  have hfold := foldTargets_eq ts HostIterator.new
  constructor
  · unfold get_targets
    rw [hfold]
    rcases hcs : collectSources ts with _ | l
    · simp [(collectSources_eq_none_iff ts).mp hcs]
    · constructor
      · intro h
        simp at h
      · intro hex
        have hc := (collectSources_eq_none_iff ts).mpr hex
        rw [hcs] at hc
        cases hc
  · intro hi h
    unfold get_targets at h
    rw [hfold] at h
    obtain ⟨l, hcs, hf⟩ := Option.map_eq_some'.mp h
    rw [hcs, ← hf]
    simp [HostIterator.new]

/-- C4 witness: a doubly unparseable target fails construction, and a single
parsed address is registered as the sole source. -/
theorem get_targets_parse_spec_witness :
    get_targets [TargetInput.mk none none] = none
    ∧ collectSources [TargetInput.mk (some (IpAddr.v4 167772161)) none]
        = some [Sum.inl (IpAddr.v4 167772161)] := by
  constructor
  · exact (get_targets_parse_spec [TargetInput.mk none none]).1.mpr
      ⟨⟨none, none⟩, List.mem_cons_self _ _, rfl, rfl⟩
  · exact (get_targets_parse_spec [TargetInput.mk (some (IpAddr.v4 167772161)) none]).2
      ⟨[Sum.inl (IpAddr.v4 167772161)]⟩ rfl

/-- C3 counterexample: with no rate-limit flag and no sanic flag, the rate
limit is the default cap Some 10000, not None as the claim requires for the
no-cap-requested case. -/
theorem get_rate_limit_default_counterexample :
    get_rate_limit none false = some (some 10000)
    ∧ get_rate_limit none false ≠ some none := by
  constructor
  · rfl
  · decide

/-- C3 (amended): an explicit positive rate r gives Some r, an explicit rate
of 0 gives None (unlimited), and an absent rate flag gives the default cap
Some 10000 rather than unlimited; sanic always forces None. -/
theorem get_rate_limit_spec (sanic : Bool) :
    (get_rate_limit none sanic = some (if sanic then none else some DEFAULT_RATE_LIMIT))
  ∧ (∀ s r, parseU64 s = some r →
      get_rate_limit (some s) sanic =
        some (if sanic then none else if r = 0 then none else some r))
  ∧ (∀ s, parseU64 s = none → get_rate_limit (some s) sanic = none) := by
  refine ⟨?_, ?_, ?_⟩
  · cases sanic <;> rfl
  · intro s r h
    cases sanic <;> by_cases hr : r = 0 <;> simp [get_rate_limit, h, hr]
  · intro s h
    simp [get_rate_limit, h]

/-- C3 witness: explicit rate 0 yields unlimited and explicit rate 7 yields
the cap 7. -/
theorem get_rate_limit_spec_witness :
    get_rate_limit (some ['0']) false = some none
    ∧ get_rate_limit (some ['7']) false = some (some 7) := by
  constructor
  · have h := (get_rate_limit_spec false).2.1 ['0'] 0 (by decide)
    simpa using h
  · have h := (get_rate_limit_spec false).2.1 ['7'] 7 (by decide)
    simpa using h

/-- C6: the timeout argument is interpreted as milliseconds, with a default
of exactly 1000 milliseconds when absent; an unparseable value panics. -/
theorem get_timeout_millis :
    (get_timeout none = some (Duration.from_millis DEFAULT_TIMEOUT_IN_MS))
  ∧ Duration.asMillis (Duration.from_millis DEFAULT_TIMEOUT_IN_MS) = 1000
  ∧ (∀ s t, parseU64 s = some t → get_timeout (some s) = some (Duration.from_millis t))
  ∧ (∀ s, parseU64 s = none → get_timeout (some s) = none) := by
  refine ⟨rfl, rfl, ?_, ?_⟩
  · intro s t h
    simp [get_timeout, h]
  · intro s h
    simp [get_timeout, h]

/-- C6 witness: the explicit timeout 5 produces a 5-millisecond duration. -/
theorem get_timeout_millis_witness :
    get_timeout (some ['5']) = some (Duration.from_millis 5) :=
  get_timeout_millis.2.2.1 ['5'] 5 (by decide)

/-- C7: absent source IPs give None (engine defaults); supplied values must
all parse as addresses, in which case the parsed list is kept in order, and
any unparseable value is a fatal configuration error. -/
theorem get_source_ips_spec :
    (get_source_ip_addresses none = some none)
  ∧ (∀ ips : List IpAddr, get_source_ip_addresses (some (ips.map some)) = some (some ips))
  ∧ (∀ l : List (Option IpAddr), none ∈ l → get_source_ip_addresses (some l) = none) := by
  refine ⟨rfl, ?_, ?_⟩
  · intro ips
    simp [get_source_ip_addresses, collectIps_map_some ips]
  · intro l h
    simp [get_source_ip_addresses, collectIps_none_of_mem l h]

/-- C7 witness: two parsed addresses are kept in order, and one unparseable
value fails construction. -/
theorem get_source_ips_spec_witness :
    get_source_ip_addresses (some [some (IpAddr.v4 1), some (IpAddr.v6 2)])
      = some (some [IpAddr.v4 1, IpAddr.v6 2])
    ∧ get_source_ip_addresses (some [some (IpAddr.v4 1), none]) = none := by
  constructor
  · exact get_source_ips_spec.2.1 [IpAddr.v4 1, IpAddr.v6 2]
  · exact get_source_ips_spec.2.2 [some (IpAddr.v4 1), none] (by decide)

/-- C8: with the sanic flag, the rate limit is None regardless of any
parseable explicit rate value, and retries is 0 unless an explicit parseable
retries value is supplied, which wins. -/
theorem sanic_flag_spec :
    (get_rate_limit none true = some none)
  ∧ (∀ s r, parseU64 s = some r → get_rate_limit (some s) true = some none)
  ∧ (get_retries none true = some 0)
  ∧ (∀ s n, parseU8 s = some n → get_retries (some s) true = some n) := by
  refine ⟨rfl, ?_, rfl, ?_⟩
  · intro s r h
    simp [get_rate_limit, h]
  · intro s n h
    simp [get_retries, h]

/-- C8 witness: sanic with explicit rate 9 still yields no rate limit, and
sanic with explicit retries 7 keeps 7 retries. -/
theorem sanic_flag_spec_witness :
    get_rate_limit (some ['9']) true = some none
    ∧ get_retries (some ['7']) true = some 7 := by
  constructor
  · exact sanic_flag_spec.2.1 ['9'] 9 (by decide)
  · exact sanic_flag_spec.2.2.2 ['7'] 7 (by decide)

/-- C9: with no listening-port flag, every random outcome yields a port in
the half-open interval from 50000 to 60000; a supplied flag must denote a
16-bit unsigned integer, or construction fails. -/
theorem get_listening_port_spec :
    (∀ rng : Nat, ∃ p, get_listening_port none rng = some p ∧ 50000 ≤ p ∧ p < 60000)
  ∧ (∀ s rng n, parseU16 s = some n → get_listening_port (some s) rng = some n)
  ∧ (∀ s rng, get_listening_port (some s) rng = none ↔
      ¬ ∃ n, n < 65536 ∧ uintRep s n) := by
  refine ⟨?_, ?_, ?_⟩
  · intro rng
    refine ⟨50000 + rng % 10000, rfl, Nat.le_add_right _ _, ?_⟩
    have hm : rng % 10000 < 10000 := Nat.mod_lt _ (by norm_num)
    omega
  · intro s rng n h
    exact h
  · intro s rng
    have h := parseUInt_eq_none_iff 16 s
    have h2 : (2 : Nat) ^ 16 = 65536 := by norm_num
    rw [h2] at h
    exact h

/-- C9 witness: random outcome 123 gives a port in range, and the explicit
flag 8080 is kept. -/
theorem get_listening_port_spec_witness :
    (∃ p, get_listening_port none 123 = some p ∧ 50000 ≤ p ∧ p < 60000)
    ∧ get_listening_port (some ['8', '0', '8', '0']) 0 = some 8080 := by
  constructor
  · exact get_listening_port_spec.1 123
  · exact get_listening_port_spec.2.1 ['8', '0', '8', '0'] 0 8080 (by decide)

theorem get_armada_config_unfold (m : Matches) (env : Env) :
    get_armada_config m env =
      (get_targets m.targets).bind (fun targets =>
      (get_ports m.ports m.top100 m.top1000 env.top100List env.top1000List).bind
        (fun ports =>
      (get_rate_limit m.rate_limit m.sanic).bind (fun rate_limit =>
      (get_listening_port m.listening_port env.rng).bind (fun listening_port =>
      (get_retries m.retries m.sanic).bind (fun retries =>
      (get_timeout m.timeout).bind (fun timeout =>
      (get_source_ip_addresses m.source_ip).bind (fun source_ips =>
        if get_stream_results m.stream
            && (!get_quiet_mode m.quiet && env.stdoutTty) then none
        else
          some ⟨targets, ports, get_quiet_mode m.quiet, rate_limit, listening_port,
            m.output_format, retries, timeout, source_ips,
            get_stream_results m.stream⟩))))))) := rfl

set_option maxHeartbeats 1600000 in
/-- C2: requesting streaming while not in quiet mode with an interactive
stdout makes configuration construction fail; with quiet mode set or a
non-interactive stdout the streaming check never fires, and construction
succeeds exactly when every getter succeeds. -/
theorem stream_requires_quiet_or_pipe (m : Matches) (env : Env) :
    (m.stream = true → m.quiet = false → env.stdoutTty = true →
      get_armada_config m env = none)
  ∧ ((m.quiet = true ∨ env.stdoutTty = false) →
      ((get_armada_config m env).isSome = true ↔ gettersOk m env)) := by
  constructor
  · intro hs hq ht
    rcases h1 : get_targets m.targets with _ | tg <;>
    rcases h2 : get_ports m.ports m.top100 m.top1000 env.top100List env.top1000List
      with _ | pts <;>
    rcases h3 : get_rate_limit m.rate_limit m.sanic with _ | rl <;>
    rcases h4 : get_listening_port m.listening_port env.rng with _ | lp <;>
    rcases h5 : get_retries m.retries m.sanic with _ | rt <;>
    rcases h6 : get_timeout m.timeout with _ | tmo <;>
    rcases h7 : get_source_ip_addresses m.source_ip with _ | si <;>
      simp [get_armada_config_unfold, h1, h2, h3, h4, h5, h6, h7, hs, hq, ht,
        get_quiet_mode, get_stream_results]
  · intro hor
    rcases h1 : get_targets m.targets with _ | tg <;>
    rcases h2 : get_ports m.ports m.top100 m.top1000 env.top100List env.top1000List
      with _ | pts <;>
    rcases h3 : get_rate_limit m.rate_limit m.sanic with _ | rl <;>
    rcases h4 : get_listening_port m.listening_port env.rng with _ | lp <;>
    rcases h5 : get_retries m.retries m.sanic with _ | rt <;>
    rcases h6 : get_timeout m.timeout with _ | tmo <;>
    rcases h7 : get_source_ip_addresses m.source_ip with _ | si <;>
      simp [get_armada_config_unfold, gettersOk, h1, h2, h3, h4, h5, h6, h7,
        get_quiet_mode, get_stream_results]
    intro hs hqf
    rcases hor with hq | ht
    · rw [hqf] at hq
      cases hq
    · exact ht

/-- C2 witness: a fully parseable configuration with quiet mode set succeeds
while streaming; the same configuration without quiet mode on an interactive
stdout fails. -/
theorem stream_requires_quiet_or_pipe_witness :
    ((get_armada_config
        ⟨[⟨some (IpAddr.v4 167772161), none⟩], some [['8', '0']], false, false,
          true, none, none, ['d'], none, none, none, true, false⟩
        ⟨true, 0, [], []⟩).isSome = true)
    ∧ get_armada_config
        ⟨[⟨some (IpAddr.v4 167772161), none⟩], some [['8', '0']], false, false,
          false, none, none, ['d'], none, none, none, true, false⟩
        ⟨true, 0, [], []⟩ = none := by
  constructor
  · exact ((stream_requires_quiet_or_pipe _ _).2 (Or.inl rfl)).mpr
      ⟨rfl, rfl, rfl, rfl, rfl, rfl, rfl⟩
  · exact (stream_requires_quiet_or_pipe _ _).1 rfl rfl rfl

end Armada
